import Mathlib

/-
Verification of the rota rotating-proxy core.

The definitions below are a shallow embedding of the Go sources:
the selector family and its filters (core/internal/proxy/rotation.go)
and the proxy server listener with its middleware chain
(core/internal/proxy/server.go). Database interaction is modelled by
passing the relevant tables (the upstream inventory and the
proxy_requests time-series log) and the clock as explicit arguments;
a query that can fail at the transport level takes an explicit
success flag. Machine integers are modelled as Int and Nat, floating
point averages as exact rationals.
-/

namespace Rota

/-- An upstream proxy row of the proxies table (models.Proxy), restricted to
the fields the rotation core reads. -/
structure Proxy where
  id : Nat
  address : String
  protocol : String
  status : String
  requests : Nat
  successfulRequests : Nat
  failedRequests : Nat
  avgResponseTime : Int
  deriving DecidableEq, Repr

/-- The rotation settings fields read by the candidate filters
(models.RotationSettings). The success-rate threshold is a rational,
standing for the float comparison performed exactly on these values. -/
structure RotationSettings where
  allowedProtocols : List String
  maxResponseTime : Int
  minSuccessRate : Rat
  deriving DecidableEq, Repr

/-- A row of the proxy_requests time-series table. -/
structure RequestRecord where
  proxyId : Nat
  timestamp : Int
  success : Bool
  deriving DecidableEq, Repr

/-- The status condition of the candidate query in
BaseSelector.loadActiveProxiesWithSettings: WHERE status IN (active, idle). -/
def statusSelectable (p : Proxy) : Bool :=
  p.status == "active" || p.status == "idle"

/-- The in-loop rotation filters of BaseSelector.loadActiveProxiesWithSettings:
protocol allow-list, maximum average response time, minimum success rate.
Each mirrors one continue branch of the Go scan loop. -/
def passesFilters (settings : Option RotationSettings) (p : Proxy) : Bool :=
  match settings with
  | none => true
  | some s =>
      (s.allowedProtocols.isEmpty || s.allowedProtocols.contains p.protocol) &&
      !(decide (0 < s.maxResponseTime) && decide (s.maxResponseTime < p.avgResponseTime)) &&
      !(decide (0 < s.minSuccessRate) && decide (0 < p.requests) &&
        decide ((p.successfulRequests : Rat) / (p.requests : Rat) * 100 < s.minSuccessRate))

/-- BaseSelector.loadActiveProxiesWithSettings. The repository query result is
an explicit Except argument (error = transport failure). Rows are filtered by
the SQL status condition and then by the rotation filters; an empty outcome is
reported as an error, never as an empty candidate list. The ORDER BY address
clause only fixes the ordering, which no claim below concerns, and row scan
errors are not modelled. -/
def loadActiveProxiesWithSettings (settings : Option RotationSettings)
    (queryResult : Except String (List Proxy)) : Except String (List Proxy) :=
  match queryResult with
  | Except.error e => Except.error ("failed to load proxies: " ++ e)
  | Except.ok rows =>
      let proxies := (rows.filter statusSelectable).filter (passesFilters settings)
      if proxies = [] then Except.error "no active or idle proxies found matching filters"
      else Except.ok proxies

/-- Selection failure cases. The first two stand for the fmt.Errorf messages
"no proxies available" and "all proxies have reached rate limit"; the third
models the Go panic on out-of-range slice indexing, unreachable under the
selector invariant that the cursor stays below the candidate count. -/
inductive SelectError where
  | noProxiesAvailable
  | allRateLimited
  | indexOutOfRange
  deriving DecidableEq, Repr

/-- RoundRobinSelector: candidate snapshot plus cursor. -/
structure RoundRobinSelector where
  proxies : List Proxy
  index : Nat
  deriving DecidableEq, Repr

/-- RoundRobinSelector.Select: error on an empty pool, otherwise return
proxies[index] and advance the cursor modulo the pool size. -/
def RoundRobinSelector.Select (s : RoundRobinSelector) :
    Except SelectError Proxy × RoundRobinSelector :=
  if s.proxies = [] then (Except.error SelectError.noProxiesAvailable, s)
  else if h : s.index < s.proxies.length then
    (Except.ok (s.proxies.get ⟨s.index, h⟩),
     { s with index := (s.index + 1) % s.proxies.length })
  else (Except.error SelectError.indexOutOfRange, s)

/-- RoundRobinSelector.Refresh: reload the candidate list; on success reset the
cursor when it is out of bounds, on failure keep the previous state. -/
def RoundRobinSelector.Refresh (s : RoundRobinSelector)
    (settings : Option RotationSettings) (queryResult : Except String (List Proxy)) :
    Except String Unit × RoundRobinSelector :=
  match loadActiveProxiesWithSettings settings queryResult with
  | Except.error e => (Except.error e, s)
  | Except.ok proxies =>
      (Except.ok (),
       { proxies := proxies,
         index := if proxies.length ≤ s.index then 0 else s.index })

/-- Sequential iteration of RoundRobinSelector.Select, collecting the returned
proxies in order and threading the state. -/
def RoundRobinSelector.selectN : RoundRobinSelector → Nat → List Proxy × RoundRobinSelector
  | s, 0 => ([], s)
  | s, n + 1 =>
      let step := RoundRobinSelector.Select s
      let rest := RoundRobinSelector.selectN step.2 n
      match step.1 with
      | Except.ok p => (p :: rest.1, rest.2)
      | Except.error _ => rest

/-- The Refresh shared in shape by RandomSelector, LeastConnectionsSelector and
TimeBasedSelector: replace the candidate list on success, keep it on failure. -/
def baseRefresh (proxies : List Proxy) (settings : Option RotationSettings)
    (queryResult : Except String (List Proxy)) : Except String Unit × List Proxy :=
  match loadActiveProxiesWithSettings settings queryResult with
  | Except.error e => (Except.error e, proxies)
  | Except.ok ps => (Except.ok (), ps)

/-- RateLimitedSelector state. Times are in whole seconds; the zero value of
time.Time used for an unset cache expiry is modelled as none. -/
structure RateLimitedSelector where
  proxies : List Proxy
  maxRequestsPerMinute : Int
  windowSeconds : Int
  currentIndex : Nat
  cache : List Proxy
  cacheExpiry : Option Int
  cacheDuration : Int
  deriving DecidableEq, Repr

/-- NewRateLimitedSelector: the derived cache duration is 2 seconds, except for
windows shorter than 10 seconds where it is windowSeconds/5 seconds. -/
def NewRateLimitedSelector (maxRequestsPerMinute windowSeconds : Int) : RateLimitedSelector :=
  { proxies := []
    maxRequestsPerMinute := maxRequestsPerMinute
    windowSeconds := windowSeconds
    currentIndex := 0
    cache := []
    cacheExpiry := none
    cacheDuration := if windowSeconds < 10 then windowSeconds / 5 else 2 }

/-- Number of proxy_requests rows for a given proxy id in the window
[now - window, now] carrying success = true: the per-group count of the SQL
query in getAvailableProxies. -/
def successCountInWindow (log : List RequestRecord) (now window : Int) (pid : Nat) : Nat :=
  (log.filter fun r => r.proxyId == pid && decide (now - window ≤ r.timestamp) && r.success).length

/-- RateLimitedSelector.proxyHasRecentRequests: SELECT COUNT(*) over the window
without any success condition, returned as count > 0. Note it counts every
request in the window, successful or not. -/
def RateLimitedSelector.proxyHasRecentRequests (log : List RequestRecord)
    (now window : Int) (pid : Nat) : Bool :=
  log.any fun r => r.proxyId == pid && decide (now - window ≤ r.timestamp)

/-- Membership test of the availableProxyIDs map built from the grouped SQL
query of getAvailableProxies: GROUP BY yields a row for a proxy id exactly when
it has at least one success = true record in the window, and HAVING keeps the
row when that count is strictly below the configured maximum. -/
def underLimitGroupRow (log : List RequestRecord) (now window : Int)
    (maxRequests : Int) (pid : Nat) : Bool :=
  let cnt := successCountInWindow log now window pid
  decide (0 < cnt) && decide ((cnt : Int) < maxRequests)

/-- RateLimitedSelector.getAvailableProxies. groupQueryOk models transport
success of the grouped query; existQueryOk models transport success of the
per-proxy existence query (on its failure the Go code silently drops the
proxy). A proxy is kept when the grouped query lists it as under the limit, or
otherwise when it has no request at all in the window. -/
def RateLimitedSelector.getAvailableProxies (s : RateLimitedSelector)
    (groupQueryOk : Bool) (existQueryOk : Nat → Bool)
    (log : List RequestRecord) (now : Int)
    (allProxies : List Proxy) : Except String (List Proxy) :=
  if allProxies = [] then Except.error "no proxies to check"
  else if !groupQueryOk then Except.error "failed to query rate limits"
  else Except.ok (allProxies.filter fun p =>
    if underLimitGroupRow log now s.windowSeconds s.maxRequestsPerMinute p.id then true
    else existQueryOk p.id &&
      !(RateLimitedSelector.proxyHasRecentRequests log now s.windowSeconds p.id))

/-- The cache validity test of RateLimitedSelector.Select:
now before cacheExpiry and cache non-empty. -/
def cacheIsValid (now : Int) (s : RateLimitedSelector) : Bool :=
  (match s.cacheExpiry with
   | none => false
   | some e => decide (now < e)) && !s.cache.isEmpty

/-- The available set RateLimitedSelector.Select works with: the cache when it
is valid, otherwise the query result, falling back to all candidates when the
store query fails. -/
def RateLimitedSelector.computedAvailable (s : RateLimitedSelector)
    (groupQueryOk : Bool) (existQueryOk : Nat → Bool)
    (log : List RequestRecord) (now : Int) : List Proxy :=
  if cacheIsValid now s then s.cache
  else
    match s.getAvailableProxies groupQueryOk existQueryOk log now s.proxies with
    | Except.ok a => a
    | Except.error _ => s.proxies

/-- RateLimitedSelector.Select: error on an empty pool; refresh the cache when
it is invalid (also when the computed set came from the degraded fallback);
error when the available set is empty; otherwise round-robin over the
available set. -/
def RateLimitedSelector.Select (s : RateLimitedSelector) (groupQueryOk : Bool)
    (existQueryOk : Nat → Bool) (log : List RequestRecord) (now : Int) :
    Except SelectError Proxy × RateLimitedSelector :=
  if s.proxies = [] then (Except.error SelectError.noProxiesAvailable, s)
  else
    let avail := s.computedAvailable groupQueryOk existQueryOk log now
    let s1 := if cacheIsValid now s then s
              else { s with cache := avail, cacheExpiry := some (now + s.cacheDuration) }
    if h : avail = [] then (Except.error SelectError.allRateLimited, s1)
    else
      have hl : 0 < avail.length := List.length_pos.mpr h
      (Except.ok (avail.get ⟨s.currentIndex % avail.length, Nat.mod_lt _ hl⟩),
       { s1 with currentIndex := (s.currentIndex + 1) % avail.length })

/-- RateLimitedSelector.Refresh: reload the candidate list; on success reset
the cursor when out of bounds and invalidate the cache, on failure keep the
previous state. -/
def RateLimitedSelector.Refresh (s : RateLimitedSelector)
    (settings : Option RotationSettings) (queryResult : Except String (List Proxy)) :
    Except String Unit × RateLimitedSelector :=
  match loadActiveProxiesWithSettings settings queryResult with
  | Except.error e => (Except.error e, s)
  | Except.ok proxies =>
      (Except.ok (),
       { s with proxies := proxies,
                currentIndex := if proxies.length ≤ s.currentIndex then 0 else s.currentIndex,
                cache := [],
                cacheExpiry := none })

/-- A request as seen by the listener, restricted to what the middleware chain
reads. hasValidProxyAuth abstracts whether the Proxy-Authorization header
matches a configured credential. -/
structure HttpRequest where
  method : String
  path : String
  rawQuery : String
  host : String
  hasValidProxyAuth : Bool
  deriving DecidableEq, Repr

/-- The path test of both the goproxy DoFunc branch and the wrapper handler:
the path equals /hyperliquid or begins with /hyperliquid/ (the 13-character
prefix comparison is carried out on the character list). -/
def hyperliquidRewriteMatch (path : String) : Bool :=
  path == "/hyperliquid" || path.data.take 13 == "/hyperliquid/".data

/-- The URL rewrite applied to matching requests: strip the 12-character
/hyperliquid segment (an empty remainder becomes /) and retarget the request at
api.hyperliquid.xyz. -/
def rewriteHyperliquid (req : HttpRequest) : HttpRequest :=
  let rest := req.path.drop 12
  let newPath := if rest == "" then "/" else rest
  { req with path := newPath, host := "api.hyperliquid.xyz" }

/-- Modelled from the spec: AuthMiddleware.HandleRequest and HandleConnect (the
middleware source file is not part of this tree). When authentication is
enabled and the request carries no valid Proxy-Authorization credential it
short-circuits with 407, otherwise it continues. -/
def authMiddlewareCheck (authEnabled : Bool) (req : HttpRequest) : Option Nat :=
  if authEnabled && !req.hasValidProxyAuth then some 407 else none

/-- Modelled from the spec: RateLimitMiddleware.HandleRequest and HandleConnect
(the middleware source file is not part of this tree). When the global
per-client limit is enabled and the client is over its limit it short-circuits
with 429, otherwise it continues; the over-limit decision is abstracted as a
predicate on the request. -/
def rateLimitMiddlewareCheck (rlEnabled : Bool) (overLimit : HttpRequest → Bool)
    (req : HttpRequest) : Option Nat :=
  if rlEnabled && overLimit req then some 429 else none

/-- Hexadecimal digit test for percent escapes. -/
def isHexDigitChar (c : Char) : Bool :=
  c.isDigit || (decide (Char.ofNat 97 ≤ c) && decide (c ≤ Char.ofNat 102)) ||
    (decide (Char.ofNat 65 ≤ c) && decide (c ≤ Char.ofNat 70))

/-- Modelled from the Go standard library net/url parser (outside this tree):
a percent sign must begin a two-hexadecimal-digit escape; the path fails to
parse otherwise. -/
def validEscapes : List Char → Bool
  | [] => true
  | c :: rest =>
      if c = Char.ofNat 37 then
        match rest with
        | a :: b :: rest2 => isHexDigitChar a && isHexDigitChar b && validEscapes rest2
        | _ => false
      else validEscapes rest

/-- Modelled from the Go standard library net/url parser: a URL containing an
ASCII control byte (below space, or delete) is rejected outright. -/
def noControlChars (cs : List Char) : Bool :=
  cs.all fun c => !(decide (c.toNat < 32) || decide (c.toNat = 127))

/-- Modelled from the Go standard library net/url parser: whether url.Parse
succeeds on the rebuilt target URL of the hyperliquid rewrite at
part_003 lines 124 and 200. The scheme and host are fixed literals, so parsing
fails exactly when the re-embedded decoded path or the raw query holds a
control character, or the path holds an invalid percent escape (the decoded
path is concatenated into the URL string, so a literal percent sign arriving
from an encoded %25 makes the rebuilt URL malformed). Shifting of decoded
path characters into query or fragment is not modelled, only the
parse outcome. -/
def hyperliquidParseOk (req : HttpRequest) : Bool :=
  noControlChars (rewriteHyperliquid req).path.data &&
  noControlChars req.rawQuery.data &&
  validEscapes (rewriteHyperliquid req).path.data

/-- Observable processing steps of one request through the listener. -/
inductive ReqEvent where
  | rewriteApplied
  | authEvaluated
  | rateLimitEvaluated
  | handlerInvoked
  | responded (status : Nat)
  deriving DecidableEq, Repr

/-- The goproxy OnRequest DoFunc chain of server.go: when the path matches the
hyperliquid prefix, the rewrite runs first and a url.Parse failure on the
rebuilt target answers 502 immediately, before any middleware; otherwise the
chain is authentication, then the per-client rate limit, then the forwarding
handler. -/
def goproxyDoFunc (authEnabled rlEnabled : Bool) (overLimit : HttpRequest → Bool)
    (req : HttpRequest) : List ReqEvent :=
  if hyperliquidRewriteMatch req.path then
    if hyperliquidParseOk req then
      [ReqEvent.rewriteApplied, ReqEvent.authEvaluated] ++
      match authMiddlewareCheck authEnabled (rewriteHyperliquid req) with
      | some code => [ReqEvent.responded code]
      | none =>
          [ReqEvent.rateLimitEvaluated] ++
          match rateLimitMiddlewareCheck rlEnabled overLimit (rewriteHyperliquid req) with
          | some code => [ReqEvent.responded code]
          | none => [ReqEvent.handlerInvoked]
    else [ReqEvent.responded 502]
  else
    [ReqEvent.authEvaluated] ++
    match authMiddlewareCheck authEnabled req with
    | some code => [ReqEvent.responded code]
    | none =>
        [ReqEvent.rateLimitEvaluated] ++
        match rateLimitMiddlewareCheck rlEnabled overLimit req with
        | some code => [ReqEvent.responded code]
        | none => [ReqEvent.handlerInvoked]

/-- The goproxy OnRequest HandleConnect chain of server.go: authentication,
then the per-client rate limit, then OkConnect handing the tunnel to the
ConnectDial forwarding path. -/
def goproxyHandleConnect (authEnabled rlEnabled : Bool) (overLimit : HttpRequest → Bool)
    (req : HttpRequest) : List ReqEvent :=
  [ReqEvent.authEvaluated] ++
  match authMiddlewareCheck authEnabled req with
  | some code => [ReqEvent.responded code]
  | none =>
      [ReqEvent.rateLimitEvaluated] ++
      match rateLimitMiddlewareCheck rlEnabled overLimit req with
      | some code => [ReqEvent.responded code]
      | none => [ReqEvent.handlerInvoked]

/-- The wrapper handler installed as the HTTP server handler of server.go:
every request entering the listener goes through it first. A request whose
path matches the hyperliquid prefix is rewritten; a url.Parse failure on the
rebuilt target answers 502 there, before the rate-limit middleware and without
forwarding; otherwise the request is processed with only the rate-limit
middleware before the forwarding handler: the source comment marks the
endpoint public and skips authentication there. Every other request is handed
to goproxy, which dispatches CONNECT requests to the HandleConnect chain and
proxy requests to the DoFunc chain (the library answer for non-proxy
origin-form requests, which engages no middleware and no forwarding, is not
modelled). -/
def wrapperHandler (authEnabled rlEnabled : Bool) (overLimit : HttpRequest → Bool)
    (req : HttpRequest) : List ReqEvent :=
  if hyperliquidRewriteMatch req.path then
    if hyperliquidParseOk req then
      [ReqEvent.rewriteApplied, ReqEvent.rateLimitEvaluated] ++
      match rateLimitMiddlewareCheck rlEnabled overLimit (rewriteHyperliquid req) with
      | some code => [ReqEvent.responded code]
      | none => [ReqEvent.handlerInvoked]
    else [ReqEvent.responded 502]
  else if req.method == "CONNECT" then goproxyHandleConnect authEnabled rlEnabled overLimit req
  else goproxyDoFunc authEnabled rlEnabled overLimit req

/-- Sample upstream for instantiating theorems at concrete inputs. -/
def mkProxy (n : Nat) : Proxy :=
  { id := n, address := "10.0.0.1:8080", protocol := "http", status := "active",
    requests := 0, successfulRequests := 0, failedRequests := 0, avgResponseTime := 0 }

/-- Sample upstream with chosen protocol, status, counters and response time. -/
def mkProxyFull (n : Nat) (protocol status : String) (req succ : Nat) (avg : Int) : Proxy :=
  { id := n, address := "10.0.0.1:8080", protocol := protocol, status := status,
    requests := req, successfulRequests := succ, failedRequests := req - succ,
    avgResponseTime := avg }

/-- C4: at construction with windowSeconds at least 1, the derived cache TTL
in seconds equals max(windowSeconds / 5, 0) clamped to at most 2; equivalently
it is 2 for windows of at least 10 seconds and windowSeconds / 5 for shorter
windows. -/
theorem C4_cache_ttl (maxReq ws : Int) (h : 1 ≤ ws) :
    (NewRateLimitedSelector maxReq ws).cacheDuration = min (max (ws / 5) 0) 2 ∧
    (10 ≤ ws → (NewRateLimitedSelector maxReq ws).cacheDuration = 2) ∧
    (ws < 10 → (NewRateLimitedSelector maxReq ws).cacheDuration = ws / 5) := by
  have hcd : (NewRateLimitedSelector maxReq ws).cacheDuration =
      if ws < 10 then ws / 5 else 2 := rfl
  rw [hcd]
  by_cases hlt : ws < 10
  · rw [if_pos hlt]
    exact ⟨by omega, fun h10 => absurd h10 (by omega), fun _ => rfl⟩
  · rw [if_neg hlt]
    exact ⟨by omega, fun _ => rfl, fun hl => absurd hl hlt⟩

/-- Witness for C4 at windowSeconds = 7: TTL is 7 / 5 = 1 second. -/
theorem C4_cache_ttl_witness :
    (NewRateLimitedSelector 30 7).cacheDuration = min (max ((7:Int) / 5) 0) 2 :=
  (C4_cache_ttl 30 7 (by decide)).1

/-- C2: Select of the rate-limited selector fails with NoUpstream exactly when
the candidate snapshot is empty, fails with AllRateLimited exactly when the
candidates are non-empty but the computed available set is empty, and in every
other case returns a member of the computed available set. -/
theorem C2_select_error_cases
    (s : RateLimitedSelector) (gq : Bool) (exq : Nat → Bool)
    (log : List RequestRecord) (now : Int) :
    ((RateLimitedSelector.Select s gq exq log now).1 =
        Except.error SelectError.noProxiesAvailable ↔ s.proxies = []) ∧
    ((RateLimitedSelector.Select s gq exq log now).1 =
        Except.error SelectError.allRateLimited ↔
      s.proxies ≠ [] ∧ RateLimitedSelector.computedAvailable s gq exq log now = []) ∧
    (s.proxies ≠ [] → RateLimitedSelector.computedAvailable s gq exq log now ≠ [] →
      ∃ p, (RateLimitedSelector.Select s gq exq log now).1 = Except.ok p ∧
        p ∈ RateLimitedSelector.computedAvailable s gq exq log now) := by
  by_cases hp : s.proxies = []
  · refine ⟨?_, ?_, fun hne _ => absurd hp hne⟩
    · simp [RateLimitedSelector.Select, hp]
    · simp [RateLimitedSelector.Select, hp]
  · by_cases ha : RateLimitedSelector.computedAvailable s gq exq log now = []
    · refine ⟨?_, ?_, fun _ hna => absurd ha hna⟩
      · simp [RateLimitedSelector.Select, hp, ha]
      · simp [RateLimitedSelector.Select, hp, ha]
    · refine ⟨?_, ?_, ?_⟩
      · simp [RateLimitedSelector.Select, hp, ha]
      · simp [RateLimitedSelector.Select, hp, ha]
      · intro _ _
        have hl : 0 < (RateLimitedSelector.computedAvailable s gq exq log now).length :=
          List.length_pos.mpr ha
        refine ⟨(RateLimitedSelector.computedAvailable s gq exq log now).get
            ⟨s.currentIndex % (RateLimitedSelector.computedAvailable s gq exq log now).length,
             Nat.mod_lt _ hl⟩, ?_, List.get_mem _ _ _⟩
        simp [RateLimitedSelector.Select, hp, ha]

/-- Witness for C2 at a selector with one candidate, an empty log and an
invalid cache: Select succeeds and returns that candidate. -/
theorem C2_select_error_cases_witness :
    ∃ p, (RateLimitedSelector.Select
        { proxies := [mkProxy 1], maxRequestsPerMinute := 30, windowSeconds := 60,
          currentIndex := 0, cache := [], cacheExpiry := none, cacheDuration := 2 }
        true (fun _ => true) [] 0).1 = Except.ok p ∧
      p ∈ RateLimitedSelector.computedAvailable
        { proxies := [mkProxy 1], maxRequestsPerMinute := 30, windowSeconds := 60,
          currentIndex := 0, cache := [], cacheExpiry := none, cacheDuration := 2 }
        true (fun _ => true) [] 0 :=
  (C2_select_error_cases
      { proxies := [mkProxy 1], maxRequestsPerMinute := 30, windowSeconds := 60,
        currentIndex := 0, cache := [], cacheExpiry := none, cacheDuration := 2 }
      true (fun _ => true) [] 0).2.2 (by decide) (by decide)

/-- C6: when the grouped store query fails while the cache is invalid, Select
treats all candidates as available and, the candidate set being non-empty,
returns one of them instead of propagating the store error. -/
theorem C6_store_failure_degrades_open
    (s : RateLimitedSelector) (exq : Nat → Bool) (log : List RequestRecord) (now : Int)
    (hne : s.proxies ≠ []) (hcache : cacheIsValid now s = false) :
    RateLimitedSelector.computedAvailable s false exq log now = s.proxies ∧
    ∃ p, (RateLimitedSelector.Select s false exq log now).1 = Except.ok p ∧
      p ∈ s.proxies := by
  have hca : RateLimitedSelector.computedAvailable s false exq log now = s.proxies := by
    simp [RateLimitedSelector.computedAvailable, hcache,
      RateLimitedSelector.getAvailableProxies, hne]
  refine ⟨hca, ?_⟩
  have hl : 0 < s.proxies.length := List.length_pos.mpr hne
  refine ⟨s.proxies.get ⟨s.currentIndex % s.proxies.length, Nat.mod_lt _ hl⟩,
    ?_, List.get_mem _ _ _⟩
  simp [RateLimitedSelector.Select, hne, hca, hcache]

/-- Witness for C6 at one candidate, an empty cache and a failing store query:
Select still returns the candidate. -/
theorem C6_store_failure_degrades_open_witness :
    RateLimitedSelector.computedAvailable
        { proxies := [mkProxy 1], maxRequestsPerMinute := 30, windowSeconds := 60,
          currentIndex := 0, cache := [], cacheExpiry := none, cacheDuration := 2 }
        false (fun _ => true) [] 0 = [mkProxy 1] ∧
    ∃ p, (RateLimitedSelector.Select
        { proxies := [mkProxy 1], maxRequestsPerMinute := 30, windowSeconds := 60,
          currentIndex := 0, cache := [], cacheExpiry := none, cacheDuration := 2 }
        false (fun _ => true) [] 0).1 = Except.ok p ∧ p ∈ [mkProxy 1] :=
  C6_store_failure_degrades_open
    { proxies := [mkProxy 1], maxRequestsPerMinute := 30, windowSeconds := 60,
      currentIndex := 0, cache := [], cacheExpiry := none, cacheDuration := 2 }
    (fun _ => true) [] 0 (by decide) (by decide)

/-- C10: when the candidate load yields no upstream passing the filters it is
reported as an error, and whenever the load fails, Refresh of each selector
variant returns that error and leaves the previous candidates, round-robin
cursor and rate-limit cache unchanged. -/
theorem C10_refresh_atomicity
    (settings : Option RotationSettings) (q : Except String (List Proxy)) (e : String) :
    (∀ rows : List Proxy,
      (rows.filter statusSelectable).filter (passesFilters settings) = [] →
        loadActiveProxiesWithSettings settings (Except.ok rows) =
          Except.error "no active or idle proxies found matching filters") ∧
    (loadActiveProxiesWithSettings settings q = Except.error e →
      (∀ s : RoundRobinSelector,
        RoundRobinSelector.Refresh s settings q = (Except.error e, s)) ∧
      (∀ s : RateLimitedSelector,
        RateLimitedSelector.Refresh s settings q = (Except.error e, s)) ∧
      (∀ ps : List Proxy, baseRefresh ps settings q = (Except.error e, ps))) := by
  constructor
  · intro rows hempty
    simp [loadActiveProxiesWithSettings, hempty]
  · intro hload
    refine ⟨fun s => ?_, fun s => ?_, fun ps => ?_⟩
    · simp [RoundRobinSelector.Refresh, hload]
    · simp [RateLimitedSelector.Refresh, hload]
    · simp [baseRefresh, hload]

/-- Witness for C10: a repository with one failed upstream loads no candidate,
and the round-robin Refresh on that load keeps its previous state. -/
theorem C10_refresh_atomicity_witness :
    loadActiveProxiesWithSettings none (Except.ok [mkProxyFull 1 "http" "failed" 0 0 0]) =
      Except.error "no active or idle proxies found matching filters" ∧
    RoundRobinSelector.Refresh { proxies := [mkProxy 1], index := 0 } none
        (Except.ok [mkProxyFull 1 "http" "failed" 0 0 0]) =
      (Except.error "no active or idle proxies found matching filters",
       { proxies := [mkProxy 1], index := 0 }) := by
  have h1 := (C10_refresh_atomicity none (Except.ok [mkProxyFull 1 "http" "failed" 0 0 0])
      "no active or idle proxies found matching filters").1
      [mkProxyFull 1 "http" "failed" 0 0 0] (by decide)
  have h2 := ((C10_refresh_atomicity none (Except.ok [mkProxyFull 1 "http" "failed" 0 0 0])
      "no active or idle proxies found matching filters").2 h1).1
      { proxies := [mkProxy 1], index := 0 }
  exact ⟨h1, h2⟩

/-- Boolean filter condition of getAvailableProxies, characterised in terms of
the window counts, assuming the per-proxy existence query succeeds. -/
theorem availFilter_iff (maxReq window : Int) (exq : Nat → Bool)
    (log : List RequestRecord) (now : Int) (pid : Nat) (hexq : exq pid = true) :
    ((if underLimitGroupRow log now window maxReq pid then true
      else exq pid &&
        !(RateLimitedSelector.proxyHasRecentRequests log now window pid)) = true)
    ↔ ((0 < successCountInWindow log now window pid ∧
        ((successCountInWindow log now window pid : Int) < maxReq)) ∨
       RateLimitedSelector.proxyHasRecentRequests log now window pid = false) := by
  by_cases hu : underLimitGroupRow log now window maxReq pid = true
  · have hc := hu
    simp only [underLimitGroupRow, Bool.and_eq_true, decide_eq_true_eq] at hc
    simp [hu, hc]
  · rw [if_neg hu]
    have hnc : ¬(0 < successCountInWindow log now window pid ∧
        ((successCountInWindow log now window pid : Int) < maxReq)) := by
      intro hc
      exact hu (by simp [underLimitGroupRow, hc.1, hc.2])
    simp [hexq, hnc]

/-- C1 (amended): with a valid query path, the available set contains exactly
the candidates that either have a successful-request count in the window
strictly between 0 and the limit, or have no request at all in the window; in
particular a candidate with no events whatsoever in the window is included. -/
theorem C1_available_set_characterization
    (s : RateLimitedSelector) (exq : Nat → Bool) (log : List RequestRecord) (now : Int)
    (hne : s.proxies ≠ []) (hexq : ∀ pid, exq pid = true) :
    ∃ avail, s.getAvailableProxies true exq log now s.proxies = Except.ok avail ∧
      (∀ p, p ∈ avail ↔ p ∈ s.proxies ∧
        ((0 < successCountInWindow log now s.windowSeconds p.id ∧
          ((successCountInWindow log now s.windowSeconds p.id : Int) <
            s.maxRequestsPerMinute)) ∨
         RateLimitedSelector.proxyHasRecentRequests log now s.windowSeconds p.id = false)) ∧
      (∀ p, p ∈ s.proxies →
        (∀ r ∈ log, r.proxyId = p.id → r.timestamp < now - s.windowSeconds) →
        p ∈ avail) := by
  have hok : s.getAvailableProxies true exq log now s.proxies =
      Except.ok (s.proxies.filter fun p =>
        if underLimitGroupRow log now s.windowSeconds s.maxRequestsPerMinute p.id then true
        else exq p.id &&
          !(RateLimitedSelector.proxyHasRecentRequests log now s.windowSeconds p.id)) := by
    simp [RateLimitedSelector.getAvailableProxies, hne]
  refine ⟨_, hok, ?_, ?_⟩
  · intro p
    rw [List.mem_filter]
    exact and_congr_right fun _ =>
      availFilter_iff s.maxRequestsPerMinute s.windowSeconds exq log now p.id (hexq p.id)
  · intro p hp hnone
    have hrec : RateLimitedSelector.proxyHasRecentRequests log now s.windowSeconds p.id
        = false := by
      simp only [RateLimitedSelector.proxyHasRecentRequests, List.any_eq_false,
        Bool.and_eq_true, beq_iff_eq, decide_eq_true_eq, not_and]
      intro r hr hid
      have := hnone r hr hid
      omega
    rw [List.mem_filter]
    refine ⟨hp, ?_⟩
    rw [availFilter_iff s.maxRequestsPerMinute s.windowSeconds exq log now p.id (hexq p.id)]
    exact Or.inr hrec

/-- Witness for C1 at one candidate and an empty log: the candidate is in the
available set. -/
theorem C1_available_set_characterization_witness :
    ∃ avail, RateLimitedSelector.getAvailableProxies
      { proxies := [mkProxy 1], maxRequestsPerMinute := 5, windowSeconds := 60,
        currentIndex := 0, cache := [], cacheExpiry := none, cacheDuration := 2 }
      true (fun _ => true) [] 0 [mkProxy 1] = Except.ok avail ∧
      (∀ p, p ∈ avail ↔ p ∈ [mkProxy 1] ∧
        ((0 < successCountInWindow [] 0 60 p.id ∧
          ((successCountInWindow [] 0 60 p.id : Int) < 5)) ∨
         RateLimitedSelector.proxyHasRecentRequests [] 0 60 p.id = false)) ∧
      (∀ p, p ∈ [mkProxy 1] →
        (∀ r ∈ ([] : List RequestRecord), r.proxyId = p.id → r.timestamp < 0 - 60) →
        p ∈ avail) :=
  C1_available_set_characterization
    { proxies := [mkProxy 1], maxRequestsPerMinute := 5, windowSeconds := 60,
      currentIndex := 0, cache := [], cacheExpiry := none, cacheDuration := 2 }
    (fun _ => true) [] 0 (by decide) (fun _ => rfl)

/-- C1 counterexample: one candidate, a single unsuccessful request inside the
window, limit 5. The candidate has zero successful requests in the window,
strictly below the limit, yet getAvailableProxies excludes it: the fallback
existence check counts unsuccessful requests too. -/
theorem C1_counterexample :
    successCountInWindow [{ proxyId := 1, timestamp := 0, success := false }] 0 60 1 = 0 ∧
    ((successCountInWindow [{ proxyId := 1, timestamp := 0, success := false }] 0 60 1 : Int)
      < 5) ∧
    RateLimitedSelector.getAvailableProxies
      { proxies := [mkProxy 1], maxRequestsPerMinute := 5, windowSeconds := 60,
        currentIndex := 0, cache := [], cacheExpiry := none, cacheDuration := 2 }
      true (fun _ => true)
      [{ proxyId := 1, timestamp := 0, success := false }] 0 [mkProxy 1] =
      Except.ok [] :=
  ⟨by decide, by decide, rfl⟩

/-- C9 counterexample: a request to the passthrough prefix with authentication
enabled and no credential reaches the forwarding handler although the
authentication middleware was never evaluated, refuting the claim that every
request reaching the handler has passed both middlewares. -/
theorem C9_counterexample :
    ReqEvent.handlerInvoked ∈ wrapperHandler true false (fun _ => false)
      { method := "GET", path := "/hyperliquid/info", rawQuery := "", host := "h",
        hasValidProxyAuth := false } ∧
    ReqEvent.authEvaluated ∉ wrapperHandler true false (fun _ => false)
      { method := "GET", path := "/hyperliquid/info", rawQuery := "", host := "h",
        hasValidProxyAuth := false } := by decide

/-- C9 (amended): for every request whose path does not match the passthrough
prefix, HTTP and CONNECT alike, authentication is evaluated first, then the
per-client rate limit, then the forwarding handler, and reaching the handler
implies both middlewares passed; passthrough requests skip authentication. -/
theorem C9_middleware_order_nonpassthrough
    (ae rle : Bool) (ol : HttpRequest → Bool) (req : HttpRequest)
    (hnm : hyperliquidRewriteMatch req.path = false) :
    wrapperHandler ae rle ol req =
      [ReqEvent.authEvaluated] ++
      (match authMiddlewareCheck ae req with
       | some code => [ReqEvent.responded code]
       | none =>
           [ReqEvent.rateLimitEvaluated] ++
           match rateLimitMiddlewareCheck rle ol req with
           | some code => [ReqEvent.responded code]
           | none => [ReqEvent.handlerInvoked]) ∧
    (ReqEvent.handlerInvoked ∈ wrapperHandler ae rle ol req →
      authMiddlewareCheck ae req = none ∧ rateLimitMiddlewareCheck rle ol req = none) := by
  have heq : wrapperHandler ae rle ol req =
      [ReqEvent.authEvaluated] ++
      (match authMiddlewareCheck ae req with
       | some code => [ReqEvent.responded code]
       | none =>
           [ReqEvent.rateLimitEvaluated] ++
           match rateLimitMiddlewareCheck rle ol req with
           | some code => [ReqEvent.responded code]
           | none => [ReqEvent.handlerInvoked]) := by
    by_cases hc : (req.method == "CONNECT") = true
    · simp [wrapperHandler, hnm, hc, goproxyHandleConnect]
    · simp [wrapperHandler, hnm, hc, goproxyDoFunc]
  refine ⟨heq, ?_⟩
  intro hmem
  rw [heq] at hmem
  rcases hau : authMiddlewareCheck ae req with _ | c1
  · rcases hrl : rateLimitMiddlewareCheck rle ol req with _ | c2
    · exact ⟨rfl, rfl⟩
    · rw [hau, hrl] at hmem
      simp at hmem
  · rw [hau] at hmem
    simp at hmem

/-- Witness for C9 at a plain proxied GET with both middlewares passing:
the chain runs auth, then rate limit, then the handler. -/
theorem C9_middleware_order_nonpassthrough_witness :
    wrapperHandler true true (fun _ => false)
      { method := "GET", path := "/other", rawQuery := "", host := "h",
        hasValidProxyAuth := true } =
      [ReqEvent.authEvaluated] ++
      (match authMiddlewareCheck true
          { method := "GET", path := "/other", rawQuery := "", host := "h",
            hasValidProxyAuth := true } with
       | some code => [ReqEvent.responded code]
       | none =>
           [ReqEvent.rateLimitEvaluated] ++
           match rateLimitMiddlewareCheck true (fun _ => false)
              { method := "GET", path := "/other", rawQuery := "", host := "h",
                hasValidProxyAuth := true } with
           | some code => [ReqEvent.responded code]
           | none => [ReqEvent.handlerInvoked]) :=
  (C9_middleware_order_nonpassthrough true true (fun _ => false)
    { method := "GET", path := "/other", rawQuery := "", host := "h",
      hasValidProxyAuth := true } (by decide)).1

/-- Characterisation of the rotation filter condition as a proposition. -/
theorem passesFilters_some_iff (s : RotationSettings) (p : Proxy) :
    passesFilters (some s) p = true ↔
      (s.allowedProtocols = [] ∨ p.protocol ∈ s.allowedProtocols) ∧
      (0 < s.maxResponseTime → p.avgResponseTime ≤ s.maxResponseTime) ∧
      (0 < s.minSuccessRate → 0 < p.requests →
        s.minSuccessRate ≤ (p.successfulRequests : Rat) / (p.requests : Rat) * 100) := by
  simp [passesFilters, List.isEmpty_iff, and_assoc]
  refine fun _ => and_congr ?_ ?_
  · omega
  · constructor
    · rintro ((h | h) | h)
      · intro hm _
        exact absurd hm (not_lt.mpr h)
      · intro _ hr
        omega
      · intro _ _
        exact h
    · intro hd
      by_cases hm : 0 < s.minSuccessRate
      · by_cases hr : 0 < p.requests
        · exact Or.inr (hd hm hr)
        · exact Or.inl (Or.inr (by omega))
      · exact Or.inl (Or.inl (le_of_not_lt hm))

/-- A successful load returns exactly the doubly filtered row list. -/
theorem load_ok_eq_filtered (settings : Option RotationSettings) (rows ps : List Proxy)
    (h : loadActiveProxiesWithSettings settings (Except.ok rows) = Except.ok ps) :
    ps = (rows.filter statusSelectable).filter (passesFilters settings) := by
  simp only [loadActiveProxiesWithSettings] at h
  by_cases hemp : (rows.filter statusSelectable).filter (passesFilters settings) = []
  · rw [if_pos hemp] at h
    exact Except.noConfusion h
  · rw [if_neg hemp] at h
    exact (Except.ok.inj h).symm

/-- C7: after a successful refresh every candidate satisfies all rotation
filters: selectable status, protocol allow-list, maximum response time, and
minimum success rate. -/
theorem C7_refresh_candidates_satisfy_filters
    (st : RotationSettings) (q : Except String (List Proxy)) (ps : List Proxy)
    (hload : loadActiveProxiesWithSettings (some st) q = Except.ok ps) :
    ∀ p ∈ ps,
      (p.status = "active" ∨ p.status = "idle") ∧
      (st.allowedProtocols ≠ [] → p.protocol ∈ st.allowedProtocols) ∧
      (0 < st.maxResponseTime → p.avgResponseTime ≤ st.maxResponseTime) ∧
      (0 < st.minSuccessRate → 0 < p.requests →
        st.minSuccessRate ≤ (p.successfulRequests : Rat) / (p.requests : Rat) * 100) := by
  intro p hp
  cases q with
  | error e => simp [loadActiveProxiesWithSettings] at hload
  | ok rows =>
      have hps := load_ok_eq_filtered (some st) rows ps hload
      rw [hps] at hp
      have h1 := List.mem_filter.mp hp
      have h2 := List.mem_filter.mp h1.1
      have hfil := (passesFilters_some_iff st p).mp h1.2
      refine ⟨?_, ?_, hfil.2.1, hfil.2.2⟩
      · simpa [statusSelectable] using h2.2
      · intro hne
        rcases hfil.1 with h | h
        · exact absurd h hne
        · exact h

/-- Witness for C7 at a one-row repository whose row passes every filter. -/
theorem C7_refresh_candidates_satisfy_filters_witness :
    ((mkProxyFull 1 "http" "active" 10 9 50).status = "active" ∨
     (mkProxyFull 1 "http" "active" 10 9 50).status = "idle") ∧
    ((["http"] : List String) ≠ [] →
      (mkProxyFull 1 "http" "active" 10 9 50).protocol ∈ (["http"] : List String)) ∧
    ((0:Int) < 100 → (mkProxyFull 1 "http" "active" 10 9 50).avgResponseTime ≤ 100) ∧
    ((0:Rat) < 0 → 0 < (mkProxyFull 1 "http" "active" 10 9 50).requests →
      (0:Rat) ≤ ((mkProxyFull 1 "http" "active" 10 9 50).successfulRequests : Rat) /
        ((mkProxyFull 1 "http" "active" 10 9 50).requests : Rat) * 100) :=
  C7_refresh_candidates_satisfy_filters
    { allowedProtocols := ["http"], maxResponseTime := 100, minSuccessRate := 0 }
    (Except.ok [mkProxyFull 1 "http" "active" 10 9 50])
    [mkProxyFull 1 "http" "active" 10 9 50] rfl
    (mkProxyFull 1 "http" "active" 10 9 50) (by decide)

/-- Tightening of the rotation filters in the sense of the amended C8: the
success-rate floor may rise, a positive response-time ceiling may drop, and
protocols may be removed from the allow-list as long as it stays non-empty. -/
def TighterSettings (t l : RotationSettings) : Prop :=
  l.minSuccessRate ≤ t.minSuccessRate ∧
  (t.maxResponseTime = l.maxResponseTime ∨
    (0 < t.maxResponseTime ∧ t.maxResponseTime ≤ l.maxResponseTime)) ∧
  (t.allowedProtocols = l.allowedProtocols ∨
    (t.allowedProtocols ≠ [] ∧ t.allowedProtocols ⊆ l.allowedProtocols))

/-- Pointwise monotonicity of the filter condition under tightening. -/
theorem passesFilters_mono (t l : RotationSettings) (p : Proxy)
    (ht : TighterSettings t l) (hp : passesFilters (some t) p = true) :
    passesFilters (some l) p = true := by
  rw [passesFilters_some_iff] at hp ⊢
  obtain ⟨hsr, hmrt, hproto⟩ := ht
  refine ⟨?_, ?_, ?_⟩
  · rcases hproto with he | ⟨hne, hsub⟩
    · rw [← he]
      exact hp.1
    · rcases hp.1 with h0 | hmem
      · exact absurd h0 hne
      · exact Or.inr (hsub hmem)
  · intro h0
    rcases hmrt with he | ⟨hpos, hle⟩
    · have h0t : 0 < t.maxResponseTime := by omega
      have := hp.2.1 h0t
      omega
    · have := hp.2.1 hpos
      omega
  · intro hm hr
    exact le_trans hsr (hp.2.2 (lt_of_lt_of_le hm hsr) hr)

/-- C8 (amended): for a fixed set of loaded rows, tightening the filters in the
sense of TighterSettings cannot enlarge the candidate set of the next refresh:
whenever the tighter load succeeds, the looser load succeeds on a superset. -/
theorem C8_filter_monotonicity
    (t l : RotationSettings) (rows ps' : List Proxy)
    (ht : TighterSettings t l)
    (hload : loadActiveProxiesWithSettings (some t) (Except.ok rows) = Except.ok ps') :
    ∃ ps, loadActiveProxiesWithSettings (some l) (Except.ok rows) = Except.ok ps ∧
      ps' ⊆ ps := by
  have hps' := load_ok_eq_filtered (some t) rows ps' hload
  have hsub : ((rows.filter statusSelectable).filter (passesFilters (some t))) ⊆
      ((rows.filter statusSelectable).filter (passesFilters (some l))) := by
    intro x hx
    rw [List.mem_filter] at hx ⊢
    exact ⟨hx.1, passesFilters_mono t l x ht hx.2⟩
  have hne : (rows.filter statusSelectable).filter (passesFilters (some l)) ≠ [] := by
    have hnet : (rows.filter statusSelectable).filter (passesFilters (some t)) ≠ [] := by
      intro he
      simp only [loadActiveProxiesWithSettings] at hload
      rw [if_pos he] at hload
      exact Except.noConfusion hload
    intro he
    rw [he] at hsub
    exact hnet (List.subset_nil.mp hsub)
  refine ⟨(rows.filter statusSelectable).filter (passesFilters (some l)), ?_, ?_⟩
  · simp only [loadActiveProxiesWithSettings]
    rw [if_neg hne]
  · rw [hps']
    exact hsub

/-- Witness for C8: raising the success-rate floor from 0 to 50 on a one-row
repository keeps the candidate set within the looser one. -/
theorem C8_filter_monotonicity_witness :
    ∃ ps, loadActiveProxiesWithSettings
        (some { allowedProtocols := [], maxResponseTime := 0, minSuccessRate := 0 })
        (Except.ok [mkProxyFull 1 "http" "active" 0 0 0]) = Except.ok ps ∧
      [mkProxyFull 1 "http" "active" 0 0 0] ⊆ ps :=
  C8_filter_monotonicity
    { allowedProtocols := [], maxResponseTime := 0, minSuccessRate := 50 }
    { allowedProtocols := [], maxResponseTime := 0, minSuccessRate := 0 }
    [mkProxyFull 1 "http" "active" 0 0 0]
    [mkProxyFull 1 "http" "active" 0 0 0]
    ⟨by decide, Or.inl rfl, Or.inl rfl⟩ rfl

/-- C8 counterexample: removing the only protocol of a one-element allow-list
disables the protocol filter, so a socks5 upstream rejected under the list
["http"] is accepted under the emptied list: the candidate set grew under the
claimed tightening. -/
theorem C8_counterexample :
    passesFilters
      (some { allowedProtocols := [], maxResponseTime := 0, minSuccessRate := 0 })
      (mkProxyFull 1 "socks5" "active" 0 0 0) = true ∧
    passesFilters
      (some { allowedProtocols := ["http"], maxResponseTime := 0, minSuccessRate := 0 })
      (mkProxyFull 1 "socks5" "active" 0 0 0) = false ∧
    loadActiveProxiesWithSettings
      (some { allowedProtocols := [], maxResponseTime := 0, minSuccessRate := 0 })
      (Except.ok [mkProxyFull 1 "socks5" "active" 0 0 0]) =
      Except.ok [mkProxyFull 1 "socks5" "active" 0 0 0] ∧
    loadActiveProxiesWithSettings
      (some { allowedProtocols := ["http"], maxResponseTime := 0, minSuccessRate := 0 })
      (Except.ok [mkProxyFull 1 "socks5" "active" 0 0 0]) =
      Except.error "no active or idle proxies found matching filters" :=
  ⟨by decide, by decide, rfl, rfl⟩

/-- One round-robin select step at an in-bounds cursor: return the candidate
at the cursor and advance the cursor modulo the pool size. -/
theorem roundRobinSelect_eq (s : RoundRobinSelector) (h : s.index < s.proxies.length) :
    RoundRobinSelector.Select s =
      (Except.ok (s.proxies.get ⟨s.index, h⟩),
       { s with index := (s.index + 1) % s.proxies.length }) := by
  have hne : s.proxies ≠ [] := by
    intro he
    rw [he] at h
    simp at h
  simp only [RoundRobinSelector.Select]
  rw [if_neg hne, dif_pos h]

/-- Splitting a run of selects into two consecutive runs. -/
theorem selectN_add (s : RoundRobinSelector) (m n : Nat) :
    RoundRobinSelector.selectN s (m + n) =
      ((RoundRobinSelector.selectN s m).1 ++
        (RoundRobinSelector.selectN (RoundRobinSelector.selectN s m).2 n).1,
       (RoundRobinSelector.selectN (RoundRobinSelector.selectN s m).2 n).2) := by
  induction m generalizing s with
  | zero => simp [RoundRobinSelector.selectN]
  | succ m ih =>
      have hadd : m + 1 + n = (m + n) + 1 := by omega
      rw [hadd]
      simp only [RoundRobinSelector.selectN]
      cases hstep : (RoundRobinSelector.Select s).1 <;> simp [ih]

/-- A run of selects that stays within the tail of the pool returns that
segment of the pool and moves the cursor accordingly. -/
theorem selectN_segment (ps : List Proxy) :
    ∀ (j i : Nat), i < ps.length → j ≤ ps.length - i →
    RoundRobinSelector.selectN { proxies := ps, index := i } j =
      ((ps.drop i).take j, { proxies := ps, index := (i + j) % ps.length }) := by
  intro j
  induction j with
  | zero =>
      intro i hi _
      simp [RoundRobinSelector.selectN, Nat.mod_eq_of_lt hi]
  | succ j ih =>
      intro i hi hj
      have hstep := roundRobinSelect_eq { proxies := ps, index := i } hi
      simp only [RoundRobinSelector.selectN]
      rw [hstep]
      by_cases hlt : i + 1 < ps.length
      · rw [Nat.mod_eq_of_lt hlt]
        rw [ih (i + 1) hlt (by omega)]
        have hidx : i + 1 + j = i + (j + 1) := by omega
        rw [hidx]
        simp [List.get_eq_getElem]
        rw [List.drop_eq_getElem_cons hi]
        rfl
      · have hj0 : j = 0 := by omega
        subst hj0
        have hmod : (i + 1) % ps.length = 0 := by
          have he : i + 1 = ps.length := by omega
          rw [he, Nat.mod_self]
        rw [hmod]
        simp [RoundRobinSelector.selectN, List.get_eq_getElem, hmod]
        rw [List.drop_eq_getElem_cons hi]
        rfl

/-- A full cycle of selects from any in-bounds cursor returns a rotation of
the pool and restores the cursor. -/
theorem selectN_cycle (ps : List Proxy) (i : Nat) (hi : i < ps.length) :
    RoundRobinSelector.selectN { proxies := ps, index := i } ps.length =
      (ps.drop i ++ ps.take i, { proxies := ps, index := i }) := by
  have h1 := selectN_segment ps (ps.length - i) i hi (by omega)
  have hmod0 : (i + (ps.length - i)) % ps.length = 0 := by
    have he : i + (ps.length - i) = ps.length := by omega
    rw [he, Nat.mod_self]
  rw [hmod0] at h1
  have htake1 : (ps.drop i).take (ps.length - i) = ps.drop i :=
    List.take_of_length_le (by simp)
  rw [htake1] at h1
  have h2 := selectN_segment ps i 0 (by omega) (by omega)
  have hmodi : (0 + i) % ps.length = i := by
    rw [Nat.zero_add, Nat.mod_eq_of_lt hi]
  rw [hmodi, List.drop_zero] at h2
  have hadd := selectN_add { proxies := ps, index := i } (ps.length - i) i
  rw [h1] at hadd
  simp only at hadd
  rw [h2] at hadd
  have hlen : ps.length - i + i = ps.length := by omega
  rw [hlen] at hadd
  simpa using hadd

/-- Rotating the pool preserves element counts. -/
theorem count_drop_append_take (ps : List Proxy) (i : Nat) (p : Proxy) :
    (ps.drop i ++ ps.take i).count p = ps.count p := by
  rw [List.count_append]
  conv_rhs => rw [← List.take_append_drop i ps]
  rw [List.count_append]
  omega

/-- Over k full cycles each pool entry is returned k times its multiplicity. -/
theorem selectN_cycles_count (ps : List Proxy) (i k : Nat) (hi : i < ps.length) (p : Proxy) :
    ((RoundRobinSelector.selectN { proxies := ps, index := i } (k * ps.length)).1).count p =
      k * ps.count p := by
  induction k with
  | zero => simp [RoundRobinSelector.selectN]
  | succ k ih =>
      have hmul : (k + 1) * ps.length = ps.length + k * ps.length := by ring
      rw [hmul, selectN_add, selectN_cycle ps i hi]
      simp only [List.count_append]
      rw [ih]
      have hc := count_drop_append_take ps i p
      rw [List.count_append] at hc
      rw [Nat.succ_mul]
      omega

/-- C5: Select of the round-robin selector returns candidates[index] and
advances the cursor to (index+1) mod len; over k times N consecutive selects
with no refresh each candidate is returned k times its multiplicity; with
candidates [a, b, c] and cursor 0, seven selects return [a, b, c, a, b, c, a]. -/
theorem C5_round_robin_rotation :
    (∀ (s : RoundRobinSelector) (h : s.index < s.proxies.length),
      RoundRobinSelector.Select s =
        (Except.ok (s.proxies.get ⟨s.index, h⟩),
         { s with index := (s.index + 1) % s.proxies.length })) ∧
    (∀ (ps : List Proxy) (i k : Nat), i < ps.length → ∀ p : Proxy,
      ((RoundRobinSelector.selectN { proxies := ps, index := i } (k * ps.length)).1).count p =
        k * ps.count p) ∧
    (∀ a b c : Proxy,
      (RoundRobinSelector.selectN { proxies := [a, b, c], index := 0 } 7).1 =
        [a, b, c, a, b, c, a]) := by
  refine ⟨roundRobinSelect_eq, fun ps i k hi p => selectN_cycles_count ps i k hi p,
    fun a b c => by simp [RoundRobinSelector.selectN, RoundRobinSelector.Select]⟩

/-- Witness for C5: two full cycles over three distinct candidates return the
first candidate exactly twice. -/
theorem C5_round_robin_rotation_witness :
    ((RoundRobinSelector.selectN
        { proxies := [mkProxy 1, mkProxy 2, mkProxy 3], index := 0 }
        (2 * [mkProxy 1, mkProxy 2, mkProxy 3].length)).1).count (mkProxy 1) =
      2 * [mkProxy 1, mkProxy 2, mkProxy 3].count (mkProxy 1) :=
  C5_round_robin_rotation.2.1 [mkProxy 1, mkProxy 2, mkProxy 3] 0 2 (by decide) (mkProxy 1)

end Rota
